import Mathlib

set_option maxHeartbeats 1000000

/-!
Shallow embedding of the `ChainPorter` asset-transfer state machine from
`tapfreighter/chain_porter.go`.  External collaborators (chain bridge, wallet,
export log, proof archive, proof courier) are modelled as a per-run oracle
record `PorterEnv`; each porter function returns, next to its Go result, the
ordered list of observable calls it made (`Event`), so that temporal claims
about call ordering can be stated on traces.  Go errors are modelled as their
message strings (the code only ever inspects a message, via
`strings.Contains`), byte blobs holding encoded proof files are modelled by
the decoded files themselves (serialization is treated as the identity), and
Go `nil`-pointer dereferences of fields that are always set on the paths the
code exercises are modelled as errors.
-/

namespace Porter

/-- Go errors, modelled by their message string. -/
abbrev GoErr := String

/-- Whether the first character list starts the second. -/
def charsLeadWith : List Char → List Char → Bool
  | [], _ => true
  | _ :: _, [] => false
  | p :: ps, c :: cs => p == c && charsLeadWith ps cs

/-- Whether the pattern occurs anywhere in the character list. -/
def charsContain (pat : List Char) : List Char → Bool
  | [] => charsLeadWith pat []
  | c :: cs => charsLeadWith pat (c :: cs) || charsContain pat cs

/-- Go `strings.Contains`: whether the pattern occurs as a substring. -/
def strContains (s pat : String) : Bool := charsContain pat.toList s.toList

/-- Compressed public keys, abstracted to naturals (`asset.ToSerialized` is the
identity in this model). -/
abbrev PubKey := Nat

/-- Asset identifiers (32-byte hashes), abstracted to naturals. -/
abbrev AssetID := Nat

/-- The ordered states of the chain porter state machine, in Go `iota` order
(`SendStateVirtualCommitmentSelect` through `SendStateComplete`). -/
inductive SendState where
  | VirtualCommitmentSelect
  | VirtualSign
  | AnchorSign
  | LogCommit
  | Broadcast
  | WaitTxConf
  | StoreProofs
  | ReceiverProofTransfer
  | Complete
deriving DecidableEq, Repr

/-- Numeric value of a send state (the Go `iota` value); the Go code compares
states with `<` on this value. -/
def SendState.toNat : SendState → Nat
  | .VirtualCommitmentSelect => 0
  | .VirtualSign => 1
  | .AnchorSign => 2
  | .LogCommit => 3
  | .Broadcast => 4
  | .WaitTxConf => 5
  | .StoreProofs => 6
  | .ReceiverProofTransfer => 7
  | .Complete => 8

/-- Confirmation parameters stamped onto a transition proof
(`proof.BaseProofParams`: the confirming block, the confirmed transaction and
its index within the block). -/
structure BaseProofParams where
  block : Nat
  tx : Nat
  txIndex : Nat
deriving DecidableEq, Repr

/-- Modelled from the spec: a transition proof (`proof.Proof`; the `proof`
package is not part of the sources).  `body` abstracts all fields the porter
never touches, `scriptKey` is the embedded asset's script key
(`Proof.Asset.ScriptKey.PubKey`), `conf` is the confirmation data of the
anchoring transaction (absent until stamped), and `additionalInputs` is the
list of full proof files of additional inputs of a merge (a proof file is an
ordered list of transition proofs). -/
inductive Proof where
  | mk (body : Nat) (scriptKey : PubKey) (conf : Option BaseProofParams)
      (additionalInputs : List (List Proof))

/-- A provenance proof file (`proof.File`): the ordered, append-only list of
transition proofs for one `(asset id, script key)` pair. -/
abbrev File := List Proof

/-- The abstract remainder of a transition proof. -/
def Proof.body : Proof → Nat
  | .mk b _ _ _ => b

/-- The script key of the asset embedded in the transition proof. -/
def Proof.scriptKey : Proof → PubKey
  | .mk _ k _ _ => k

/-- The confirmation data carried by the transition proof, if stamped. -/
def Proof.conf : Proof → Option BaseProofParams
  | .mk _ _ c _ => c

/-- The additional-inputs list of the transition proof. -/
def Proof.additionalInputs : Proof → List File
  | .mk _ _ _ a => a

/-- Modelled from the spec: `proof.Proof.UpdateTransitionProof` (not in the
sources) stamps the proof with the given confirmation parameters, leaving the
rest of the proof unchanged. -/
def Proof.updateTransitionProof : Proof → BaseProofParams → Proof
  | .mk b k _ a, p => .mk b k (some p) a

/-- Appending additional-input proof files to a transition proof, as the Go
`append` on the `AdditionalInputs` slice does. -/
def Proof.appendAdditionalInputs : Proof → List File → Proof
  | .mk b k c a, fs => .mk b k c (a ++ fs)

/-- Modelled from the spec: `proof.File.AppendProof` (not in the sources)
appends one transition proof to the end of the append-only file. -/
def File.appendProof (f : File) (p : Proof) : File := f ++ [p]

/-- Go `proof.File.NumProofs`. -/
def File.numProofs (f : File) : Nat := f.length

/-- A proof locator (`proof.Locator`): `(asset id, script key)`. -/
structure Locator where
  assetID : AssetID
  scriptKey : PubKey

/-- An annotated proof (`proof.AnnotatedProof`): a locator plus the encoded
proof-file blob (blobs are modelled by the decoded file they encode). -/
structure AnnotatedProof where
  locator : Locator
  blob : File

/-- A chain confirmation event (`chainntnfs.TxConfirmation`); `tx` and
`block` abstract the confirmed transaction and the containing block. -/
structure TxConfirmation where
  blockHash : Nat
  blockHeight : Nat
  txIndex : Nat
  tx : Nat
  block : Nat

/-- A courier recipient (`proof.Recipient`). -/
structure Recipient where
  scriptKey : PubKey
  assetID : AssetID
  amount : Nat

/-- The tweaked-script-key part of an `asset.ScriptKey`; `rawKey` is the key
descriptor the key ring is asked about. -/
structure TweakedScriptKey where
  rawKey : Nat

/-- An `asset.ScriptKey`: the tweaked public key plus the optional embedded
`TweakedScriptKey` (a nil pointer in Go is `none`). -/
structure ScriptKey where
  pubKey : PubKey
  tweaked : Option TweakedScriptKey

/-- A `TransferInput` of the outbound parcel: asset id plus script key
(script-key bytes are modelled already parsed). -/
structure TransferInput where
  id : AssetID
  scriptKey : PubKey

/-- The type of a transfer output (`tappsbt.VOutputType`). -/
inductive VOutputType where
  | simple
  | splitRoot
  | passiveAssetsOnly
deriving DecidableEq, Repr

/-- A `TransferOutput` of the outbound parcel.  `proofSuffix` is the encoded
suffix blob, modelled by the decoded transition proof it encodes;
`anchorOutPointIndex` is `Anchor.OutPoint.Index`. -/
structure TransferOutput where
  outputType : VOutputType
  amount : Nat
  scriptKey : ScriptKey
  scriptKeyLocal : Bool
  anchorOutPointIndex : Nat
  proofSuffix : Proof

/-- An on-chain transaction: its hash and the pk-scripts of its outputs. -/
structure Tx where
  txid : Nat
  txOut : List Nat

/-- A passive-asset re-anchor record (`PassiveAssetReAnchor`): genesis id,
script key and the new (unstamped) transition proof. -/
structure PassiveAssetReanchor where
  genesisID : AssetID
  scriptKeyPub : PubKey
  newProof : Proof

/-- The journaled outbound parcel (`OutboundParcel`). -/
structure OutboundParcel where
  anchorTx : Tx
  anchorTxHeightHint : Nat
  inputs : List TransferInput
  outputs : List TransferOutput
  passiveAssets : List PassiveAssetReanchor

/-- The record handed to `ExportLog.ConfirmParcelDelivery`
(`AssetConfirmEvent`).  The passive proof files are keyed by locator (the Go
code keys them by the locator's hash). -/
structure AssetConfirmEvent where
  anchorTxid : Nat
  blockHash : Nat
  blockHeight : Nat
  txIndex : Nat
  finalProofs : List (PubKey × AnnotatedProof)
  passiveAssetProofFiles : List (Locator × File)

/-- The observable calls the porter makes on its collaborators, in program
order.  Payloads record exactly the arguments the claims are about. -/
inductive Event where
  | execState (s : SendState)
  | logPendingParcel (parcel : OutboundParcel)
  | importTaprootOutput (key : PubKey)
  | publishTx (txid : Nat)
  | deliverTxResp
  | registerConf
  | fetchProof (loc : Locator)
  | importProofs (proofs : List AnnotatedProof)
  | deliverProof (r : Recipient)
  | confirmParcelDelivery (ev : AssetConfirmEvent)

/-- The in-memory working record of one transfer (`sendPackage`).
`isAddressParcel` records whether the originating request is an
`*AddressParcel` (the only parcel variant the first state accepts);
`finalProofs` is the `FinalProofs` map as an association list keyed by
serialized script key (a fresh Go map is the empty list). -/
structure SendPackage where
  sendState : SendState
  isAddressParcel : Bool
  virtualPacket : Option Nat
  inputCommitments : Option Nat
  passiveAssets : List PassiveAssetReanchor
  anchorTx : Option Tx
  outboundPkg : Option OutboundParcel
  transferTxConfEvent : Option TxConfirmation
  finalProofs : List (PubKey × AnnotatedProof)

/-- Which branch of the `select` in `waitForTransferTxConf` fires: a
confirmation arrives, the notifier's error channel fires, the confirmation
context is cancelled, or the process-wide quit channel closes. -/
inductive ConfSelect where
  | confirmed (c : TxConfirmation)
  | errChan (e : GoErr)
  | ctxDone
  | quit

/-- Result of one courier `DeliverProof` call: success, an error wrapping a
`proof.BackoffExecError` (which `errors.As` recognises), or any other
error. -/
inductive CourierResult where
  | ok
  | backoff
  | fatal (e : GoErr)

/-- The per-run oracle for all external collaborators of the porter.  Each
field fixes the outcome of the corresponding collaborator call for this run;
`quit` is whether the process-wide quit channel is closed, `proofCourier` is
whether `cfg.ProofCourier` is non-nil. -/
structure PorterEnv where
  quit : Bool
  fundAddressSend : Except GoErr (Nat × Nat)
  signVirtualPacket : Except GoErr Unit
  estimateFee : Except GoErr Nat
  firstNonSplitRootOutput : Except GoErr Unit
  signPassiveAssets : Except GoErr (List PassiveAssetReanchor)
  anchorVirtualTransactions : Except GoErr Tx
  currentHeight : Except GoErr Nat
  prepareForStorage : Nat → Except GoErr OutboundParcel
  isLocalKey : Nat → Bool
  logPendingParcel : Except GoErr Unit
  parseAnchorOutputKey : Nat → Except GoErr PubKey
  importTaprootOutput : PubKey → Except GoErr Unit
  publishTransaction : Except GoErr Unit
  registerConfNtfn : Except GoErr Unit
  confSelect : ConfSelect
  fetchProof : Locator → Except GoErr File
  importProofs : List AnnotatedProof → Except GoErr Unit
  proofCourier : Bool
  deliverProof : Recipient → AnnotatedProof → CourierResult
  confirmParcelDelivery : Except GoErr Unit

/-- Lookup in the `FinalProofs` map as the `deliver` closure of
`transferReceiverProof` performs it: scan the map's values for the first
annotated proof whose locator script key equals the output's script key. -/
def findFinalProof (fps : List (PubKey × AnnotatedProof)) (out : TransferOutput) :
    Option AnnotatedProof :=
  (fps.find? fun kv => kv.2.locator.scriptKey == out.scriptKey.pubKey).map (·.2)

/-- Go map insertion for the `FinalProofs` map: replace any binding of the
key and add the new one. -/
def insertFinalProof (fps : List (PubKey × AnnotatedProof)) (k : PubKey)
    (ap : AnnotatedProof) : List (PubKey × AnnotatedProof) :=
  (k, ap) :: fps.filter fun kv => kv.1 != k

/-- Whether a transfer output is local in the sense of the `deliver` closure:
its script-key tweak is present and the `ScriptKeyLocal` flag is set. -/
def isLocalOutput (out : TransferOutput) : Bool :=
  out.scriptKey.tweaked.isSome && out.scriptKeyLocal

/-- `fetchInputProof`: build the locator from the input and fetch (and
decode) its proof file from the archive; fetch and decode failures are fused
into the oracle's fetch outcome. -/
def fetchInputProof (env : PorterEnv) (input : TransferInput) :
    List Event × Except GoErr File :=
  let loc : Locator := ⟨input.id, input.scriptKey⟩
  match env.fetchProof loc with
  | .error e => ([.fetchProof loc], .error ("error fetching input proof: " ++ e))
  | .ok f => ([.fetchProof loc], .ok f)

/-- `updateAssetProofFile`: fetch the current proof file for the asset id and
script key, stamp the new proof with the confirmation data, append it to the
file, and return the annotated proof (locator keyed by the new proof's asset
script key). -/
def updateAssetProofFile (env : PorterEnv) (assetID : AssetID)
    (scriptKeyPub : PubKey) (confEvent : TxConfirmation) (newProof : Proof) :
    List Event × Except GoErr AnnotatedProof :=
  let locator : Locator := ⟨assetID, scriptKeyPub⟩
  match env.fetchProof locator with
  | .error e => ([.fetchProof locator], .error ("error fetching proof: " ++ e))
  | .ok currentProofFile =>
    let newProof2 := newProof.updateTransitionProof
      ⟨confEvent.block, confEvent.tx, confEvent.txIndex⟩
    ([.fetchProof locator],
     .ok ⟨⟨assetID, newProof2.scriptKey⟩, currentProofFile.appendProof newProof2⟩)

/-- The passive-asset loop of `storeProofs`: generate one updated annotated
proof file per passive asset, stopping at the first failure. -/
def buildPassiveProofFiles (env : PorterEnv) (confEvent : TxConfirmation) :
    List PassiveAssetReanchor → List Event × Except GoErr (List AnnotatedProof)
  | [] => ([], .ok [])
  | pa :: rest =>
    match updateAssetProofFile env pa.genesisID pa.scriptKeyPub confEvent pa.newProof with
    | (tr, .error e) =>
      (tr, .error ("failed to generate an updated proof file for passive asset: " ++ e))
    | (tr, .ok ap) =>
      match buildPassiveProofFiles env confEvent rest with
      | (tr2, .error e) => (tr ++ tr2, .error e)
      | (tr2, .ok aps) => (tr ++ tr2, .ok (ap :: aps))

/-- The additional-inputs loop of `storeProofs`: fetch the full proof file of
each input beyond the first, in input order. -/
def fetchAdditionalInputFiles (env : PorterEnv) :
    List TransferInput → List Event × Except GoErr (List File)
  | [] => ([], .ok [])
  | i :: rest =>
    match fetchInputProof env i with
    | (tr, .error e) => (tr, .error ("error fetching input proof: " ++ e))
    | (tr, .ok f) =>
      match fetchAdditionalInputFiles env rest with
      | (tr2, .error e) => (tr ++ tr2, .error e)
      | (tr2, .ok fs) => (tr ++ tr2, .ok (f :: fs))

/-- The body of the active-output loop of `storeProofs` for one non-passive
output: decode the output's proof suffix (modelled already decoded), stamp it
with the confirmation data, fetch the first input's proof file, attach the
full proof files of all further inputs to the suffix's additional-inputs
list, append the suffix to the first input's file, and return the resulting
annotated proof located at `(first input's asset id, output script key)`. -/
def sealActiveOutput (env : PorterEnv) (firstInput : TransferInput)
    (additionalInputs : List TransferInput) (confEvent : TxConfirmation)
    (out : TransferOutput) : List Event × Except GoErr AnnotatedProof :=
  let proofSuffix := out.proofSuffix.updateTransitionProof
    ⟨confEvent.block, confEvent.tx, confEvent.txIndex⟩
  match fetchInputProof env firstInput with
  | (tr, .error e) => (tr, .error e)
  | (tr, .ok inputProofFile) =>
    match fetchAdditionalInputFiles env additionalInputs with
    | (tr2, .error e) => (tr ++ tr2, .error e)
    | (tr2, .ok addFiles) =>
      let proofSuffix2 := proofSuffix.appendAdditionalInputs addFiles
      (tr ++ tr2,
       .ok ⟨⟨firstInput.id, out.scriptKey.pubKey⟩,
            inputProofFile.appendProof proofSuffix2⟩)

/-- The active-output loop of `storeProofs`: skip passive-only outputs, seal
every other output, record it in the `FinalProofs` map under its serialized
script key, and import it into the archive one call per output. -/
def sealActiveOutputs (env : PorterEnv) (firstInput : TransferInput)
    (additionalInputs : List TransferInput) (confEvent : TxConfirmation) :
    List TransferOutput → List (PubKey × AnnotatedProof) →
    List Event × Except GoErr (List (PubKey × AnnotatedProof))
  | [], acc => ([], .ok acc)
  | out :: rest, acc =>
    if out.outputType = VOutputType.passiveAssetsOnly then
      sealActiveOutputs env firstInput additionalInputs confEvent rest acc
    else
      match sealActiveOutput env firstInput additionalInputs confEvent out with
      | (tr, .error e) => (tr, .error e)
      | (tr, .ok outputProof) =>
        let acc2 := insertFinalProof acc out.scriptKey.pubKey outputProof
        match env.importProofs [outputProof] with
        | .error e =>
          (tr ++ [.importProofs [outputProof]], .error ("error importing proof: " ++ e))
        | .ok _ =>
          match sealActiveOutputs env firstInput additionalInputs confEvent rest acc2 with
          | (tr2, r) => (tr ++ [.importProofs [outputProof]] ++ tr2, r)

/-- `storeProofs`: generate and batch-import the updated passive proof files,
then (unless the parcel has no inputs) seal, record and import the proof file
of every non-passive output, and advance to `ReceiverProofTransfer`.  The Go
nil-pointer dereferences of an unset outbound package or confirmation event
are modelled as errors. -/
def storeProofs (env : PorterEnv) (sendPkg : SendPackage) :
    List Event × Except GoErr SendPackage :=
  match sendPkg.outboundPkg with
  | none => ([], .error "nil outbound package")
  | some parcel =>
    match sendPkg.transferTxConfEvent with
    | none => ([], .error "nil confirmation event")
    | some confEvent =>
      match buildPassiveProofFiles env confEvent sendPkg.passiveAssets with
      | (tr, .error e) => (tr, .error e)
      | (tr, .ok passiveFiles) =>
        match env.importProofs passiveFiles with
        | .error e =>
          (tr ++ [.importProofs passiveFiles],
           .error ("error importing passive proof: " ++ e))
        | .ok _ =>
          match parcel.inputs with
          | [] =>
            (tr ++ [.importProofs passiveFiles],
             .ok { sendPkg with sendState := .ReceiverProofTransfer })
          | firstInput :: restInputs =>
            match sealActiveOutputs env firstInput restInputs confEvent
                parcel.outputs [] with
            | (tr2, .error e) => (tr ++ [.importProofs passiveFiles] ++ tr2, .error e)
            | (tr2, .ok fps) =>
              (tr ++ [.importProofs passiveFiles] ++ tr2,
               .ok { sendPkg with
                       finalProofs := fps,
                       sendState := .ReceiverProofTransfer })

/-- The `deliver` closure of `transferReceiverProof` for one transfer output:
skip local outputs; otherwise find the sealed proof among the final proofs
(failure is fatal), invoke the courier, swallow a backoff result, and fail on
any other courier error. -/
def deliverOne (env : PorterEnv) (pkg : SendPackage) (out : TransferOutput) :
    List Event × Except GoErr Unit :=
  if isLocalOutput out then ([], .ok ())
  else
    match findFinalProof pkg.finalProofs out with
    | none => ([], .error "no proof found for output")
    | some receiverProof =>
      let recipient : Recipient :=
        ⟨out.scriptKey.pubKey, receiverProof.locator.assetID, out.amount⟩
      match env.deliverProof recipient receiverProof with
      | .ok => ([.deliverProof recipient], .ok ())
      | .backoff => ([.deliverProof recipient], .ok ())
      | .fatal e => ([.deliverProof recipient], .error ("error delivering proof: " ++ e))

/-- `chanutils.ParSlice` over the outputs: every branch runs (the goroutines
are all launched); the first branch error, in slice order, is reported. -/
def parSlice (f : TransferOutput → List Event × Except GoErr Unit) :
    List TransferOutput → List Event × Except GoErr Unit
  | [] => ([], .ok ())
  | x :: xs =>
    match f x, parSlice f xs with
    | (tr, .error e), (tr2, _) => (tr ++ tr2, .error e)
    | (tr, .ok _), (tr2, r) => (tr ++ tr2, r)

/-- The passive-proof loading loop of `transferReceiverProof`: fetch the
proof file of every passive asset of the outbound parcel from the archive. -/
def loadPassiveProofFiles (env : PorterEnv) :
    List PassiveAssetReanchor → List Event × Except GoErr (List (Locator × File))
  | [] => ([], .ok [])
  | pa :: rest =>
    let loc : Locator := ⟨pa.genesisID, pa.scriptKeyPub⟩
    match env.fetchProof loc with
    | .error e =>
      ([.fetchProof loc], .error ("error fetching passive asset proof file: " ++ e))
    | .ok blob =>
      match loadPassiveProofFiles env rest with
      | (tr, .error e) => (.fetchProof loc :: tr, .error e)
      | (tr, .ok l) => (.fetchProof loc :: tr, .ok ((loc, blob) :: l))

/-- `transferReceiverProof`: when a proof courier is configured, deliver the
receiver proofs for all outputs in parallel; then load the passive proof
files from the archive, mark the parcel confirmed in the export log, and set
the state to `Complete`. -/
def transferReceiverProof (env : PorterEnv) (pkg : SendPackage) :
    List Event × Except GoErr SendPackage :=
  match pkg.outboundPkg with
  | none => ([], .error "nil outbound package")
  | some parcel =>
    match
      (if env.proofCourier then parSlice (deliverOne env pkg) parcel.outputs
       else ([], .ok ())) with
    | (tr0, .error e) => (tr0, .error ("error delivering proof(s): " ++ e))
    | (tr0, .ok _) =>
      match loadPassiveProofFiles env parcel.passiveAssets with
      | (tr1, .error e) => (tr0 ++ tr1, .error e)
      | (tr1, .ok passiveFiles) =>
        match pkg.transferTxConfEvent with
        | none => (tr0 ++ tr1, .error "nil confirmation event")
        | some conf =>
          let ev : AssetConfirmEvent :=
            ⟨parcel.anchorTx.txid, conf.blockHash, conf.blockHeight,
             conf.txIndex, pkg.finalProofs, passiveFiles⟩
          match env.confirmParcelDelivery with
          | .error e =>
            (tr0 ++ tr1 ++ [.confirmParcelDelivery ev],
             .error ("unable to log parcel delivery confirmation: " ++ e))
          | .ok _ =>
            (tr0 ++ tr1 ++ [.confirmParcelDelivery ev],
             .ok { pkg with sendState := .Complete })

/-- `importLocalAddresses`: for every output flagged local, extract the
anchor output key from the anchor transaction (extraction and schnorr parsing
are fused into one oracle call) and import it into the wallet; an import
error whose message contains "already exists" is treated as success, any
other import error aborts.  An out-of-range anchor output index (a Go slice
panic) is modelled as an error. -/
def importLocalAddresses (env : PorterEnv) (anchorTx : Tx) :
    List TransferOutput → List Event × Except GoErr Unit
  | [] => ([], .ok ())
  | out :: rest =>
    if !out.scriptKeyLocal then importLocalAddresses env anchorTx rest
    else
      match anchorTx.txOut.get? out.anchorOutPointIndex with
      | none => ([], .error "anchor output index out of range")
      | some pkScript =>
        match env.parseAnchorOutputKey pkScript with
        | .error e => ([], .error e)
        | .ok anchorOutputKey =>
          match env.importTaprootOutput anchorOutputKey with
          | .ok _ =>
            match importLocalAddresses env anchorTx rest with
            | (tr, r) => (.importTaprootOutput anchorOutputKey :: tr, r)
          | .error e =>
            if strContains e "already exists" then
              match importLocalAddresses env anchorTx rest with
              | (tr, r) => (.importTaprootOutput anchorOutputKey :: tr, r)
            else ([.importTaprootOutput anchorOutputKey], .error e)

/-- `waitForTransferTxConf`: register for the confirmation notification, then
block on the first of: a confirmation event (record it and advance to
`StoreProofs`), the notifier's error channel (error), context cancellation
(fall through with no event, so the nil-event check fails with an error), or
process quit (return nil immediately). -/
def waitForTransferTxConf (env : PorterEnv) (pkg : SendPackage) :
    List Event × Except GoErr SendPackage :=
  match pkg.outboundPkg with
  | none => ([], .error "nil outbound package")
  | some _ =>
    match env.registerConfNtfn with
    | .error e =>
      ([.registerConf], .error ("unable to register for package tx conf: " ++ e))
    | .ok _ =>
      match env.confSelect with
      | .confirmed c =>
        ([.registerConf],
         .ok { pkg with transferTxConfEvent := some c, sendState := .StoreProofs })
      | .errChan e =>
        ([.registerConf],
         .error ("error whilst waiting for package tx confirmation: " ++ e))
      | .ctxDone =>
        ([.registerConf], .error "got empty package tx confirmation event in batch")
      | .quit => ([.registerConf], .ok pkg)

/-- The local-script-key stamping loop of the `LogCommit` state: set the
`ScriptKeyLocal` flag on every output whose script-key tweak is present and
whose raw key the key ring reports as local. -/
def stampLocalFlags (env : PorterEnv) (outs : List TransferOutput) :
    List TransferOutput :=
  outs.map fun out =>
    match out.scriptKey.tweaked with
    | some t =>
      if env.isLocalKey t.rawKey then { out with scriptKeyLocal := true } else out
    | none => out

/-- `stateStep`: execute one state of the state machine, returning the calls
made and either an error or the updated package.  The subscriber notification
at entry is recorded as an `execState` event. -/
def stateStep (env : PorterEnv) (currentPkg : SendPackage) :
    List Event × Except GoErr SendPackage :=
  let ev := Event.execState currentPkg.sendState
  match currentPkg.sendState with
  | .VirtualCommitmentSelect =>
    if currentPkg.isAddressParcel then
      match env.fundAddressSend with
      | .error e => ([ev], .error ("unable to fund address send: " ++ e))
      | .ok (vp, ic) =>
        ([ev], .ok { currentPkg with
                       virtualPacket := some vp,
                       inputCommitments := some ic,
                       sendState := .VirtualSign })
    else ([ev], .error "unable to cast parcel to address parcel")
  | .VirtualSign =>
    match env.signVirtualPacket with
    | .error e => ([ev], .error ("unable to sign and commit virtual packet: " ++ e))
    | .ok _ => ([ev], .ok { currentPkg with sendState := .AnchorSign })
  | .AnchorSign =>
    match env.estimateFee with
    | .error e => ([ev], .error ("unable to estimate fee: " ++ e))
    | .ok _ =>
      match env.firstNonSplitRootOutput with
      | .error e => ([ev], .error ("unable to get first interactive output: " ++ e))
      | .ok _ =>
        match env.signPassiveAssets with
        | .error e => ([ev], .error ("unable to sign passive assets: " ++ e))
        | .ok passives =>
          match env.anchorVirtualTransactions with
          | .error e => ([ev], .error ("unable to anchor virtual transactions: " ++ e))
          | .ok anchorTx =>
            ([ev], .ok { currentPkg with
                           passiveAssets := passives,
                           anchorTx := some anchorTx,
                           sendState := .LogCommit })
  | .LogCommit =>
    match env.currentHeight with
    | .error e => ([ev], .error ("unable to get current height: " ++ e))
    | .ok currentHeight =>
      match env.prepareForStorage currentHeight with
      | .error e => ([ev], .error ("unable to prepare parcel for storage: " ++ e))
      | .ok parcel0 =>
        let parcel := { parcel0 with outputs := stampLocalFlags env parcel0.outputs }
        match env.logPendingParcel with
        | .error e =>
          ([ev, .logPendingParcel parcel],
           .error ("unable to write send pkg to disk: " ++ e))
        | .ok _ =>
          ([ev, .logPendingParcel parcel],
           .ok { currentPkg with outboundPkg := some parcel, sendState := .Broadcast })
  | .Broadcast =>
    match currentPkg.outboundPkg with
    | none => ([ev], .error "nil outbound package")
    | some parcel =>
      match importLocalAddresses env parcel.anchorTx parcel.outputs with
      | (tr, .error e) =>
        (ev :: tr, .error ("unable to import local addresses: " ++ e))
      | (tr, .ok _) =>
        match env.publishTransaction with
        | .error e => (ev :: tr ++ [.publishTx parcel.anchorTx.txid], .error e)
        | .ok _ =>
          (ev :: tr ++ [.publishTx parcel.anchorTx.txid, .deliverTxResp],
           .ok { currentPkg with sendState := .WaitTxConf })
  | .WaitTxConf =>
    match waitForTransferTxConf env currentPkg with
    | (tr, r) => (ev :: tr, r)
  | .StoreProofs =>
    match storeProofs env currentPkg with
    | (tr, r) => (ev :: tr, r)
  | .ReceiverProofTransfer =>
    match transferReceiverProof env currentPkg with
    | (tr, r) => (ev :: tr, r)
  | .Complete => ([ev], .error "unknown state")

/-- `advanceState`, fuel-indexed: loop while the state is before `Complete`,
returning early when the quit channel is closed, stopping with the error of a
failed step, and concatenating the traces of the executed steps.  (Fuel `9`
covers every run: a step never decreases the state.) -/
def advanceStateAux (env : PorterEnv) :
    Nat → SendPackage → List Event × Except GoErr SendPackage
  | 0, pkg => ([], .ok pkg)
  | n + 1, pkg =>
    if pkg.sendState.toNat < SendState.Complete.toNat then
      if env.quit then ([], .ok pkg)
      else
        match stateStep env pkg with
        | (tr, .error e) => (tr, .error e)
        | (tr, .ok pkg2) =>
          match advanceStateAux env n pkg2 with
          | (tr2, r) => (tr ++ tr2, r)
    else ([], .ok pkg)

/-- `advanceState`: the driver loop of the porter for one send package. -/
def advanceState (env : PorterEnv) (pkg : SendPackage) :
    List Event × Except GoErr SendPackage :=
  advanceStateAux env 9 pkg

/-- The sequence of values taken by the `SendState` field of a package over a
driver run: the state at entry of each executed step, fuel-indexed like
`advanceStateAux`. -/
def advanceVisited (env : PorterEnv) : Nat → SendPackage → List SendState
  | 0, _ => []
  | n + 1, pkg =>
    if pkg.sendState.toNat < SendState.Complete.toNat then
      if env.quit then []
      else
        match stateStep env pkg with
        | (_, .error _) => [pkg.sendState]
        | (_, .ok pkg2) => pkg.sendState :: advanceVisited env n pkg2
    else []

/-- Scanning a trace from the start: `true` when a journal write
(`LogPendingParcel`) occurs before any broadcast (`PublishTransaction`) —
that is, the first of the two kinds of event to occur, if any, is the journal
write. -/
def logBeforePublish : List Event → Bool
  | [] => true
  | .logPendingParcel _ :: _ => true
  | .publishTx _ :: _ => false
  | _ :: rest => logBeforePublish rest

/-- Whether a trace contains a broadcast call. -/
def hasPublish : List Event → Bool
  | [] => false
  | .publishTx _ :: _ => true
  | _ :: rest => hasPublish rest

/-- The courier deliveries of a trace, in order. -/
def deliverEvents : List Event → List Recipient
  | [] => []
  | .deliverProof r :: rest => r :: deliverEvents rest
  | _ :: rest => deliverEvents rest

/-- Sample transition proof used as an output's proof suffix. -/
def sampleSuffix : Proof := .mk 7 20 none []

/-- Sample non-local transfer output (script key 20, no tweak data). -/
def sampleOut : TransferOutput := ⟨.simple, 100, ⟨20, none⟩, false, 0, sampleSuffix⟩

/-- Sample local transfer output (script key 30, tweak data present, raw key 5). -/
def sampleLocalOut : TransferOutput := ⟨.splitRoot, 70, ⟨30, some ⟨5⟩⟩, true, 0, .mk 8 30 none []⟩

/-- Sample transfer input. -/
def sampleInput : TransferInput := ⟨1, 10⟩

/-- Sample anchor transaction. -/
def sampleTx : Tx := ⟨100, [1, 2]⟩

/-- Sample outbound parcel: one input, one non-local output, no passive assets. -/
def sampleParcel : OutboundParcel := ⟨sampleTx, 700, [sampleInput], [sampleOut], []⟩

/-- Sample chain confirmation event. -/
def sampleConf : TxConfirmation := ⟨900, 701, 3, 100, 55⟩

/-- Archive contents used by the sample oracle: one single-proof file per
locator. -/
def sampleArchive (loc : Locator) : File :=
  [.mk (10 * loc.assetID + loc.scriptKey) loc.scriptKey none []]

/-- Sample oracle on which every collaborator call succeeds. -/
def baseEnv : PorterEnv where
  quit := false
  fundAddressSend := .ok (11, 12)
  signVirtualPacket := .ok ()
  estimateFee := .ok 5
  firstNonSplitRootOutput := .ok ()
  signPassiveAssets := .ok []
  anchorVirtualTransactions := .ok sampleTx
  currentHeight := .ok 700
  prepareForStorage := fun _ => .ok sampleParcel
  isLocalKey := fun k => k == 5
  logPendingParcel := .ok ()
  parseAnchorOutputKey := fun s => .ok (s + 1000)
  importTaprootOutput := fun _ => .ok ()
  publishTransaction := .ok ()
  registerConfNtfn := .ok ()
  confSelect := .confirmed sampleConf
  fetchProof := fun loc => .ok (sampleArchive loc)
  importProofs := fun _ => .ok ()
  proofCourier := true
  deliverProof := fun _ _ => .ok
  confirmParcelDelivery := .ok ()

/-- A fresh send package as built from an address parcel request. -/
def freshPkg : SendPackage :=
  ⟨.VirtualCommitmentSelect, true, none, none, [], none, none, none, []⟩

/-- A package waiting for the anchor transaction to confirm. -/
def pkgWait : SendPackage :=
  ⟨.WaitTxConf, true, some 11, some 12, [], some sampleTx, some sampleParcel, none, []⟩

/-- The sealed proof for the sample non-local output. -/
def sampleFinalProof : AnnotatedProof :=
  ⟨⟨1, 20⟩, (sampleArchive ⟨1, 10⟩).appendProof
      ((sampleSuffix.updateTransitionProof ⟨55, 100, 3⟩).appendAdditionalInputs [])⟩

/-- A package in the receiver-proof-transfer state whose final proofs hold the
sealed proof for the sample output. -/
def pkgTransfer : SendPackage :=
  ⟨.ReceiverProofTransfer, true, some 11, some 12, [], some sampleTx,
   some sampleParcel, some sampleConf, [(20, sampleFinalProof)]⟩

/-- Two sample passive-asset re-anchor records. -/
def samplePassives : List PassiveAssetReanchor :=
  [⟨2, 40, .mk 9 40 none []⟩, ⟨3, 41, .mk 10 41 none []⟩]

/-- A passive-assets-only outbound parcel: no inputs, one passive-only output. -/
def samplePassiveParcel : OutboundParcel :=
  ⟨sampleTx, 700, [], [⟨.passiveAssetsOnly, 0, ⟨21, none⟩, false, 0, .mk 7 21 none []⟩],
   samplePassives⟩

/-- A package entering `StoreProofs` for the passive-assets-only parcel. -/
def pkgStorePassive : SendPackage :=
  ⟨.StoreProofs, true, some 11, some 12, samplePassives, some sampleTx,
   some samplePassiveParcel, some sampleConf, []⟩

/-- An outbound parcel mixing one non-local and one local output. -/
def parcelMix : OutboundParcel :=
  ⟨sampleTx, 700, [sampleInput], [sampleOut, sampleLocalOut], []⟩

/-- A package in the receiver-proof-transfer state for the mixed parcel. -/
def pkgTransferMix : SendPackage :=
  ⟨.ReceiverProofTransfer, true, some 11, some 12, [], some sampleTx,
   some parcelMix, some sampleConf, [(20, sampleFinalProof)]⟩

/-- A local output is importable without aborting `importLocalAddresses`: its
anchor output exists, its key parses, and the wallet import either succeeds
or fails with an error whose message contains "already exists". -/
def importOK (env : PorterEnv) (anchorTx : Tx) (out : TransferOutput) : Prop :=
  out.scriptKeyLocal = true →
  ∃ pkScript key, anchorTx.txOut.get? out.anchorOutPointIndex = some pkScript ∧
    env.parseAnchorOutputKey pkScript = .ok key ∧
    (env.importTaprootOutput key = .ok () ∨
     ∃ e, env.importTaprootOutput key = .error e ∧
       strContains e "already exists" = true)

/-- Appending a single element to a list makes it the last element. -/
theorem getLast?_snoc {α : Type} (l : List α) (a : α) :
    (l ++ [a]).getLast? = some a := by
  rw [List.getLast?_append_cons]
  rfl

/-- Stamping a transition proof sets its confirmation data. -/
theorem conf_updateTransitionProof (p : Proof) (c : BaseProofParams) :
    (p.updateTransitionProof c).conf = some c := by
  cases p
  rfl

/-- Attaching additional-input files leaves the confirmation data alone. -/
theorem conf_appendAdditionalInputs (p : Proof) (fs : List File) :
    (p.appendAdditionalInputs fs).conf = p.conf := by
  cases p
  rfl

/-- Attaching additional-input files appends them to the existing list. -/
theorem additionalInputs_append (p : Proof) (fs : List File) :
    (p.appendAdditionalInputs fs).additionalInputs = p.additionalInputs ++ fs := by
  cases p
  rfl

/-- Stamping a transition proof leaves its additional-inputs list alone. -/
theorem additionalInputs_updateTransitionProof (p : Proof) (c : BaseProofParams) :
    (p.updateTransitionProof c).additionalInputs = p.additionalInputs := by
  cases p
  rfl

/-- C4 counterexample: at a concrete input whose confirmation wait ends by
context cancellation without a confirmation event, `waitForTransferTxConf`
does not return silently: it returns the empty-confirmation-event error,
refuting the claim as stated. -/
theorem ctxDoneReturnsError :
    (waitForTransferTxConf { baseEnv with confSelect := .ctxDone } pkgWait).2 =
      Except.error "got empty package tx confirmation event in batch" := rfl

/-- C4 (amended): when the confirmation wait ends by context cancellation
without a confirmation event, `waitForTransferTxConf` returns the
empty-confirmation-event error; it returns silently (no error, package
unchanged) only on process quit; a confirmation event records the event and
advances to `StoreProofs`; registration failure and an error from the
notifier's error channel are returned as errors. -/
theorem waitForTransferTxConfOutcomes (env : PorterEnv) (pkg : SendPackage)
    (parcel : OutboundParcel) (hout : pkg.outboundPkg = some parcel) :
    (∀ e, env.registerConfNtfn = .error e →
      (waitForTransferTxConf env pkg).2 =
        .error ("unable to register for package tx conf: " ++ e)) ∧
    (env.registerConfNtfn = .ok () →
      (env.confSelect = .ctxDone →
        (waitForTransferTxConf env pkg).2 =
          .error "got empty package tx confirmation event in batch") ∧
      (env.confSelect = .quit →
        waitForTransferTxConf env pkg = ([.registerConf], .ok pkg)) ∧
      (∀ c, env.confSelect = .confirmed c →
        waitForTransferTxConf env pkg = ([.registerConf],
          .ok { pkg with transferTxConfEvent := some c,
                         sendState := .StoreProofs })) ∧
      (∀ e, env.confSelect = .errChan e →
        (waitForTransferTxConf env pkg).2 =
          .error ("error whilst waiting for package tx confirmation: " ++ e))) := by
  refine ⟨fun e he => ?_, fun hr => ⟨fun hc => ?_, fun hc => ?_, fun c hc => ?_,
    fun e hc => ?_⟩⟩ <;>
    simp only [waitForTransferTxConf, hout] <;>
    first
      | (rw [he])
      | (rw [hr, hc])

/-- C4 witness: the amended claim evaluated at the quit branch of the sample
oracle. -/
theorem waitForTransferTxConfOutcomes_witness :
    waitForTransferTxConf { baseEnv with confSelect := .quit } pkgWait =
      ([Event.registerConf], .ok pkgWait) :=
  ((waitForTransferTxConfOutcomes { baseEnv with confSelect := .quit } pkgWait
    sampleParcel rfl).2 rfl).2.1 rfl

/-- C6: the transition proof appended by the `StoreProofs` step carries
exactly the observed confirmation data.  First conjunct: whenever the
active-output loop body seals an output's proof file, the appended (last)
transition proof is stamped with the confirmation event's block, transaction
and transaction index.  Second conjunct: the same for the proof appended to
every passive-asset file by `updateAssetProofFile`. -/
theorem confirmationDataStamped :
    (∀ (env : PorterEnv) (firstInput : TransferInput)
      (addInputs : List TransferInput) (confEvent : TxConfirmation)
      (out : TransferOutput) (tr : List Event) (ap : AnnotatedProof),
      sealActiveOutput env firstInput addInputs confEvent out = (tr, .ok ap) →
      ∃ p, ap.blob.getLast? = some p ∧
        p.conf = some ⟨confEvent.block, confEvent.tx, confEvent.txIndex⟩) ∧
    (∀ (env : PorterEnv) (assetID : AssetID) (scriptKeyPub : PubKey)
      (confEvent : TxConfirmation) (newProof : Proof) (tr : List Event)
      (ap : AnnotatedProof),
      updateAssetProofFile env assetID scriptKeyPub confEvent newProof =
        (tr, .ok ap) →
      ∃ p, ap.blob.getLast? = some p ∧
        p.conf = some ⟨confEvent.block, confEvent.tx, confEvent.txIndex⟩) := by
  constructor
  · intro env firstInput addInputs confEvent out tr ap h
    rw [sealActiveOutput] at h
    rcases hf : fetchInputProof env firstInput with ⟨tr1, r1⟩
    rw [hf] at h
    cases r1 with
    | error e => simp at h
    | ok inputFile =>
      rcases hfa : fetchAdditionalInputFiles env addInputs with ⟨tr2, r2⟩
      rw [hfa] at h
      cases r2 with
      | error e => simp at h
      | ok addFiles =>
        simp only [Prod.mk.injEq, Except.ok.injEq] at h
        refine ⟨(out.proofSuffix.updateTransitionProof
          ⟨confEvent.block, confEvent.tx, confEvent.txIndex⟩).appendAdditionalInputs
            addFiles, ?_, ?_⟩
        · rw [← h.2]
          exact getLast?_snoc _ _
        · rw [conf_appendAdditionalInputs, conf_updateTransitionProof]
  · intro env assetID scriptKeyPub confEvent newProof tr ap h
    rw [updateAssetProofFile] at h
    rcases hf : env.fetchProof ⟨assetID, scriptKeyPub⟩ with e | currentFile <;>
      rw [hf] at h
    · simp at h
    · simp only [Prod.mk.injEq, Except.ok.injEq] at h
      refine ⟨newProof.updateTransitionProof
        ⟨confEvent.block, confEvent.tx, confEvent.txIndex⟩, ?_, ?_⟩
      · rw [← h.2]
        exact getLast?_snoc _ _
      · rw [conf_updateTransitionProof]

/-- When every input's proof file is in the archive, the additional-inputs
loop fetches exactly the files of the given inputs, in order. -/
theorem fetchAdditionalInputFiles_ok (env : PorterEnv)
    (fileOf : TransferInput → File)
    (hfetch : ∀ i : TransferInput,
      env.fetchProof ⟨i.id, i.scriptKey⟩ = .ok (fileOf i)) :
    ∀ l : List TransferInput, fetchAdditionalInputFiles env l =
      (l.map fun i => Event.fetchProof ⟨i.id, i.scriptKey⟩, .ok (l.map fileOf))
  | [] => rfl
  | i :: rest => by
    simp only [fetchAdditionalInputFiles, fetchInputProof, hfetch i,
      fetchAdditionalInputFiles_ok env fileOf hfetch rest, List.map]
    rfl

/-- C6 witness: the stamping property evaluated on the sample archive, for an
active output and for a passive asset. -/
theorem confirmationDataStamped_witness :
    (∃ p : Proof, List.getLast? (((sealActiveOutput baseEnv sampleInput [] sampleConf
        sampleOut).2.toOption.map AnnotatedProof.blob).getD []) = some p ∧
        p.conf = some ⟨55, 100, 3⟩) ∧
    (∃ p : Proof, List.getLast? (((updateAssetProofFile baseEnv 2 40 sampleConf
        (Proof.mk 9 40 none [])).2.toOption.map AnnotatedProof.blob).getD []) =
          some p ∧ p.conf = some ⟨55, 100, 3⟩) := by
  constructor
  · obtain ⟨p, hp, hc⟩ := confirmationDataStamped.1 baseEnv sampleInput []
      sampleConf sampleOut _ _ rfl
    exact ⟨p, by rw [← hp]; rfl, hc⟩
  · obtain ⟨p, hp, hc⟩ := confirmationDataStamped.2 baseEnv 2 40 sampleConf
      (Proof.mk 9 40 none []) _ _ rfl
    exact ⟨p, by rw [← hp]; rfl, hc⟩

/-- C5: for a parcel with `n` inputs (`n ≥ 1`) whose proof files are all in
the archive, the proof sealed for an active output is the first input's proof
file with the stamped suffix appended, and the suffix's additional-inputs
list holds exactly the full proof files of the remaining `n - 1` inputs, in
input order. -/
theorem mergeSealsAdditionalInputs (env : PorterEnv) (i0 : TransferInput)
    (rest : List TransferInput) (confEvent : TxConfirmation)
    (out : TransferOutput) (fileOf : TransferInput → File)
    (hfetch : ∀ i : TransferInput,
      env.fetchProof ⟨i.id, i.scriptKey⟩ = .ok (fileOf i))
    (hsuf : out.proofSuffix.additionalInputs = []) :
    ∃ tr p, sealActiveOutput env i0 rest confEvent out =
        (tr, .ok ⟨⟨i0.id, out.scriptKey.pubKey⟩, (fileOf i0).appendProof p⟩) ∧
      p.additionalInputs = rest.map fileOf ∧
      p.additionalInputs.length = (i0 :: rest).length - 1 := by
  have hseal : sealActiveOutput env i0 rest confEvent out =
      (Event.fetchProof ⟨i0.id, i0.scriptKey⟩ ::
         rest.map (fun i => Event.fetchProof ⟨i.id, i.scriptKey⟩),
       .ok ⟨⟨i0.id, out.scriptKey.pubKey⟩, (fileOf i0).appendProof
         ((out.proofSuffix.updateTransitionProof
           ⟨confEvent.block, confEvent.tx, confEvent.txIndex⟩).appendAdditionalInputs
             (rest.map fileOf))⟩) := by
    simp only [sealActiveOutput, fetchInputProof, hfetch i0,
      fetchAdditionalInputFiles_ok env fileOf hfetch rest, List.singleton_append]
  refine ⟨_, _, hseal, ?_, ?_⟩
  · rw [additionalInputs_append, additionalInputs_updateTransitionProof, hsuf,
      List.nil_append]
  · rw [additionalInputs_append, additionalInputs_updateTransitionProof, hsuf,
      List.nil_append, List.length_map, List.length_cons]
    rfl

/-- C5 witness: a merge of two inputs on the sample archive; the sealed
suffix carries exactly one additional input, the second input's file. -/
theorem mergeSealsAdditionalInputs_witness :
    ∃ tr p, sealActiveOutput baseEnv sampleInput [⟨1, 15⟩] sampleConf sampleOut =
        (tr, .ok ⟨⟨1, 20⟩, (sampleArchive ⟨1, 10⟩).appendProof p⟩) ∧
      p.additionalInputs = [sampleArchive ⟨1, 15⟩] ∧
      p.additionalInputs.length = 1 := by
  obtain ⟨tr, p, h1, h2, h3⟩ := mergeSealsAdditionalInputs baseEnv sampleInput
    [⟨1, 15⟩] sampleConf sampleOut
    (fun i => sampleArchive ⟨i.id, i.scriptKey⟩) (fun i => rfl) rfl
  exact ⟨tr, p, h1, h2, h3⟩

/-- Every passive asset yields exactly one updated annotated proof file. -/
theorem buildPassiveProofFiles_length (env : PorterEnv)
    (confEvent : TxConfirmation) :
    ∀ (pas : List PassiveAssetReanchor) (tr : List Event)
      (files : List AnnotatedProof),
      buildPassiveProofFiles env confEvent pas = (tr, .ok files) →
      files.length = pas.length
  | [], tr, files, h => by
    simp only [buildPassiveProofFiles, Prod.mk.injEq, Except.ok.injEq] at h
    rw [← h.2]
    rfl
  | pa :: rest, tr, files, h => by
    rw [buildPassiveProofFiles] at h
    rcases hu : updateAssetProofFile env pa.genesisID pa.scriptKeyPub confEvent
        pa.newProof with ⟨tr1, r1⟩
    rw [hu] at h
    cases r1 with
    | error e => simp at h
    | ok ap =>
      rcases hr : buildPassiveProofFiles env confEvent rest with ⟨tr2, r2⟩
      rw [hr] at h
      cases r2 with
      | error e => simp at h
      | ok aps =>
        simp only [Prod.mk.injEq, Except.ok.injEq] at h
        rw [← h.2, List.length_cons, List.length_cons,
          buildPassiveProofFiles_length env confEvent rest tr2 aps hr]

/-- C9: for a parcel with zero inputs (passive assets only), `storeProofs`
imports exactly the passive annotated proofs in a single batch call made
before any active-output processing, seals no active proofs (its whole trace
is the passive fetches plus that one batch import), leaves `FinalProofs`
empty, and sets the state to `ReceiverProofTransfer`. -/
theorem passiveOnlyStoreProofs (env : PorterEnv) (pkg : SendPackage)
    (parcel : OutboundParcel) (confEvent : TxConfirmation) (tr : List Event)
    (files : List AnnotatedProof)
    (hout : pkg.outboundPkg = some parcel)
    (hconf : pkg.transferTxConfEvent = some confEvent)
    (hinp : parcel.inputs = [])
    (hfp : pkg.finalProofs = [])
    (hbuild : buildPassiveProofFiles env confEvent pkg.passiveAssets =
      (tr, .ok files))
    (himp : env.importProofs files = .ok ()) :
    storeProofs env pkg =
      (tr ++ [.importProofs files],
       .ok { pkg with sendState := .ReceiverProofTransfer }) ∧
    files.length = pkg.passiveAssets.length ∧
    ({ pkg with sendState := SendState.ReceiverProofTransfer }).finalProofs = [] := by
  refine ⟨?_, buildPassiveProofFiles_length env confEvent _ _ _ hbuild, hfp⟩
  simp only [storeProofs, hout, hconf, hbuild, himp, hinp]

/-- C9 witness: the passive-assets-only parcel on the sample archive. -/
theorem passiveOnlyStoreProofs_witness :
    (storeProofs baseEnv pkgStorePassive).2 =
      .ok { pkgStorePassive with sendState := SendState.ReceiverProofTransfer } := by
  have h := passiveOnlyStoreProofs baseEnv pkgStorePassive samplePassiveParcel
    sampleConf _ _ rfl rfl rfl rfl rfl rfl
  rw [h.1]

/-- Courier deliveries in a concatenated trace. -/
theorem deliverEvents_append (a b : List Event) :
    deliverEvents (a ++ b) = deliverEvents a ++ deliverEvents b := by
  induction a with
  | nil => rfl
  | cons e rest ih =>
    cases e <;> simp only [List.cons_append, deliverEvents, List.append_eq, ih]

/-- Loading passive proof files never invokes the courier. -/
theorem deliverEvents_loadPassiveProofFiles (env : PorterEnv) :
    ∀ (pas : List PassiveAssetReanchor) (tr : List Event)
      (r : Except GoErr (List (Locator × File))),
      loadPassiveProofFiles env pas = (tr, r) → deliverEvents tr = []
  | [], tr, r, h => by
    simp only [loadPassiveProofFiles, Prod.mk.injEq] at h
    rw [← h.1]
    rfl
  | pa :: rest, tr, r, h => by
    rw [loadPassiveProofFiles] at h
    rcases hf : env.fetchProof ⟨pa.genesisID, pa.scriptKeyPub⟩ with e | blob <;>
      rw [hf] at h
    · simp only [Prod.mk.injEq] at h
      rw [← h.1]
      rfl
    · rcases hr : loadPassiveProofFiles env rest with ⟨tr2, r2⟩
      rw [hr] at h
      cases r2 <;> simp only [Prod.mk.injEq] at h <;> rw [← h.1] <;>
        simp only [deliverEvents] <;>
        exact deliverEvents_loadPassiveProofFiles env rest tr2 _ hr

/-- C10: with no proof courier configured, `transferReceiverProof` performs
no proof deliveries at all, yet still loads the passive proof files, invokes
`ConfirmParcelDelivery` with the loaded files, and sets the state to
`Complete`. -/
theorem nilCourierStillConfirms (env : PorterEnv) (pkg : SendPackage)
    (parcel : OutboundParcel) (confEvent : TxConfirmation) (tr : List Event)
    (files : List (Locator × File))
    (hcour : env.proofCourier = false)
    (hout : pkg.outboundPkg = some parcel)
    (hconf : pkg.transferTxConfEvent = some confEvent)
    (hload : loadPassiveProofFiles env parcel.passiveAssets = (tr, .ok files))
    (hcpd : env.confirmParcelDelivery = .ok ()) :
    transferReceiverProof env pkg =
      (tr ++ [.confirmParcelDelivery ⟨parcel.anchorTx.txid, confEvent.blockHash,
          confEvent.blockHeight, confEvent.txIndex, pkg.finalProofs, files⟩],
       .ok { pkg with sendState := .Complete }) ∧
    deliverEvents (transferReceiverProof env pkg).1 = [] := by
  have heq : transferReceiverProof env pkg =
      (tr ++ [.confirmParcelDelivery ⟨parcel.anchorTx.txid, confEvent.blockHash,
          confEvent.blockHeight, confEvent.txIndex, pkg.finalProofs, files⟩],
       .ok { pkg with sendState := .Complete }) := by
    simp only [transferReceiverProof, hout, hcour, Bool.false_eq_true, if_false,
      hload, hconf, hcpd, List.nil_append]
  refine ⟨heq, ?_⟩
  rw [heq]
  simp only [deliverEvents_append,
    deliverEvents_loadPassiveProofFiles env parcel.passiveAssets tr _ hload,
    deliverEvents, List.nil_append]

/-- C10 witness: the sample transfer package with the courier removed. -/
theorem nilCourierStillConfirms_witness :
    transferReceiverProof { baseEnv with proofCourier := false } pkgTransfer =
      ([Event.confirmParcelDelivery
          ⟨100, 900, 701, 3, [(20, sampleFinalProof)], []⟩],
       .ok { pkgTransfer with sendState := .Complete }) :=
  (nilCourierStillConfirms { baseEnv with proofCourier := false } pkgTransfer
    sampleParcel sampleConf [] [] rfl rfl rfl rfl rfl).1

/-- C2: at a concrete parcel whose single non-local output's delivery returns
a courier `Backoff` signal, `transferReceiverProof` does not leave the parcel
pending: the backoff is swallowed, `ConfirmParcelDelivery` is invoked and the
state advances to `Complete`, contradicting the claim (and the code's own
comment that the delivery will be retried later). -/
theorem backoffStillConfirmsDelivery :
    transferReceiverProof { baseEnv with deliverProof := fun _ _ => .backoff }
      pkgTransfer =
      ([Event.deliverProof ⟨20, 1, 100⟩,
        Event.confirmParcelDelivery ⟨100, 900, 701, 3, [(20, sampleFinalProof)], []⟩],
       .ok { pkgTransfer with sendState := .Complete }) := rfl

/-- The trace of the delivery fan-out over a cons. -/
theorem parSlice_cons_trace (f : TransferOutput → List Event × Except GoErr Unit)
    (x : TransferOutput) (xs : List TransferOutput) :
    (parSlice f (x :: xs)).1 = (f x).1 ++ (parSlice f xs).1 := by
  rcases hf : f x with ⟨tr, r⟩
  rcases hps : parSlice f xs with ⟨tr2, r2⟩
  cases r <;> simp [parSlice, hf, hps]

/-- The `deliver` closure on a local output makes no calls. -/
theorem deliverOne_trace_local (env : PorterEnv) (pkg : SendPackage)
    (out : TransferOutput) (hl : isLocalOutput out = true) :
    deliverOne env pkg out = ([], .ok ()) := by
  simp [deliverOne, hl]

/-- The `deliver` closure on a non-local output with a sealed proof invokes
the courier exactly once, whatever the courier answers. -/
theorem deliverOne_trace_nonlocal (env : PorterEnv) (pkg : SendPackage)
    (out : TransferOutput) (ap : AnnotatedProof)
    (hl : isLocalOutput out = false)
    (hfind : findFinalProof pkg.finalProofs out = some ap) :
    (deliverOne env pkg out).1 =
      [.deliverProof ⟨out.scriptKey.pubKey, ap.locator.assetID, out.amount⟩] := by
  simp only [deliverOne, hl, Bool.false_eq_true, if_false, hfind]
  cases env.deliverProof ⟨out.scriptKey.pubKey, ap.locator.assetID, out.amount⟩ ap <;>
    rfl

/-- When every non-local output has a sealed proof, the delivery fan-out
invokes the courier exactly for the non-local outputs, in output order. -/
theorem deliverEvents_parSlice (env : PorterEnv) (pkg : SendPackage)
    (apOf : TransferOutput → AnnotatedProof) :
    ∀ outs : List TransferOutput,
      (∀ out ∈ outs, isLocalOutput out = false →
        findFinalProof pkg.finalProofs out = some (apOf out)) →
      deliverEvents (parSlice (deliverOne env pkg) outs).1 =
        (outs.filter fun o => !isLocalOutput o).map
          fun o => ⟨o.scriptKey.pubKey, (apOf o).locator.assetID, o.amount⟩
  | [], _ => rfl
  | out :: rest, hap => by
    have ihr := deliverEvents_parSlice env pkg apOf rest
      fun o ho hl => hap o (List.mem_cons_of_mem out ho) hl
    rw [parSlice_cons_trace, deliverEvents_append]
    cases hl : isLocalOutput out with
    | false =>
      have hfind := hap out (List.mem_cons_self out rest) hl
      rw [deliverOne_trace_nonlocal env pkg out (apOf out) hl hfind, ihr]
      simp [deliverEvents, List.filter_cons, hl]
    | true =>
      rw [deliverOne_trace_local env pkg out hl, ihr]
      simp [deliverEvents, List.filter_cons, hl]

/-- With a courier configured, the courier calls of `transferReceiverProof`
are exactly those of the delivery fan-out over the parcel's outputs. -/
theorem transferReceiverProof_deliverEvents (env : PorterEnv)
    (pkg : SendPackage) (parcel : OutboundParcel)
    (hcour : env.proofCourier = true)
    (hout : pkg.outboundPkg = some parcel) :
    deliverEvents (transferReceiverProof env pkg).1 =
      deliverEvents (parSlice (deliverOne env pkg) parcel.outputs).1 := by
  simp only [transferReceiverProof, hout, hcour, if_true]
  rcases hps : parSlice (deliverOne env pkg) parcel.outputs with ⟨tr0, r0⟩
  cases r0 with
  | error e => rfl
  | ok u =>
    rcases hld : loadPassiveProofFiles env parcel.passiveAssets with ⟨tr1, r1⟩
    have hnd := deliverEvents_loadPassiveProofFiles env parcel.passiveAssets tr1 r1 hld
    cases r1 with
    | error e => simp [deliverEvents_append, hnd]
    | ok files =>
      cases hconf : pkg.transferTxConfEvent with
      | none => simp [deliverEvents_append, hnd]
      | some conf =>
        cases hcpd : env.confirmParcelDelivery <;>
          simp [deliverEvents_append, hnd, deliverEvents]

/-- A failing branch of the delivery fan-out makes the whole fan-out fail. -/
theorem parSlice_mem_error (f : TransferOutput → List Event × Except GoErr Unit) :
    ∀ (outs : List TransferOutput) (x : TransferOutput) (e : GoErr),
      x ∈ outs → (f x).2 = .error e →
      ∃ e2, (parSlice f outs).2 = .error e2
  | [], x, _, hx, _ => absurd hx (List.not_mem_nil x)
  | y :: ys, x, e, hx, hfx => by
    rcases hf : f y with ⟨tr, r⟩
    rcases hps : parSlice f ys with ⟨tr2, r2⟩
    rcases List.mem_cons.mp hx with rfl | hmem
    · rw [hf] at hfx
      simp only at hfx
      subst hfx
      refine ⟨e, ?_⟩
      simp [parSlice, hf, hps]
    · obtain ⟨e2, h2⟩ := parSlice_mem_error f ys x e hmem hfx
      rw [hps] at h2
      simp only at h2
      subst h2
      cases r with
      | error e3 => exact ⟨e3, by simp [parSlice, hf, hps]⟩
      | ok u => exact ⟨e2, by simp [parSlice, hf, hps]⟩

/-- C7: first conjunct — with a courier configured and a sealed proof for
every non-local output, `DeliverProof` is invoked exactly for the non-local
outputs (an output being local iff its script-key tweak is present and its
`ScriptKeyLocal` flag is set).  Second conjunct — a non-local output with no
matching entry in the final proofs makes the step fail.  Third conjunct —
the `LogCommit` stamping sets `ScriptKeyLocal` exactly on the outputs whose
tweak is present and whose raw key the key ring reports as local. -/
theorem courierTargetsNonLocalOutputs :
    (∀ (env : PorterEnv) (pkg : SendPackage) (parcel : OutboundParcel)
      (apOf : TransferOutput → AnnotatedProof),
      env.proofCourier = true →
      pkg.outboundPkg = some parcel →
      (∀ out ∈ parcel.outputs, isLocalOutput out = false →
        findFinalProof pkg.finalProofs out = some (apOf out)) →
      deliverEvents (transferReceiverProof env pkg).1 =
        (parcel.outputs.filter fun o => !isLocalOutput o).map
          fun o => ⟨o.scriptKey.pubKey, (apOf o).locator.assetID, o.amount⟩) ∧
    (∀ (env : PorterEnv) (pkg : SendPackage) (parcel : OutboundParcel)
      (out : TransferOutput),
      env.proofCourier = true →
      pkg.outboundPkg = some parcel →
      out ∈ parcel.outputs →
      isLocalOutput out = false →
      findFinalProof pkg.finalProofs out = none →
      ∃ e, (transferReceiverProof env pkg).2 = .error e) ∧
    (∀ (env : PorterEnv) (outs : List TransferOutput),
      stampLocalFlags env outs = outs.map fun o =>
        { o with scriptKeyLocal := o.scriptKeyLocal ||
            (match o.scriptKey.tweaked with
             | some t => env.isLocalKey t.rawKey
             | none => false) }) := by
  refine ⟨?_, ?_, ?_⟩
  · intro env pkg parcel apOf hcour hout hap
    rw [transferReceiverProof_deliverEvents env pkg parcel hcour hout]
    exact deliverEvents_parSlice env pkg apOf parcel.outputs hap
  · intro env pkg parcel out hcour hout hmem hl hfind
    have hone : (deliverOne env pkg out).2 = .error "no proof found for output" := by
      simp [deliverOne, hl, hfind]
    obtain ⟨e2, h2⟩ := parSlice_mem_error (deliverOne env pkg) parcel.outputs out _
      hmem hone
    refine ⟨"error delivering proof(s): " ++ e2, ?_⟩
    simp only [transferReceiverProof, hout, hcour, if_true]
    rcases hps : parSlice (deliverOne env pkg) parcel.outputs with ⟨tr0, r0⟩
    rw [hps] at h2
    simp only at h2
    subst h2
    rfl
  · intro env outs
    apply List.map_congr_left
    intro o _
    cases ht : o.scriptKey.tweaked with
    | none => simp
    | some t =>
      cases hk : env.isLocalKey t.rawKey <;> simp [hk]

/-- C7 witness: the mixed parcel, one non-local output and one local output;
the courier is invoked exactly once, for the non-local output; and the
missing-proof branch fails on a package with no final proofs. -/
theorem courierTargetsNonLocalOutputs_witness :
    deliverEvents (transferReceiverProof baseEnv pkgTransferMix).1 =
      [⟨20, 1, 100⟩] ∧
    (∃ e, (transferReceiverProof baseEnv
      { pkgTransferMix with finalProofs := [] }).2 = .error e) ∧
    stampLocalFlags baseEnv [sampleOut] = [sampleOut] := by
  refine ⟨?_, ?_, ?_⟩
  · have h := courierTargetsNonLocalOutputs.1 baseEnv pkgTransferMix parcelMix
      (fun _ => sampleFinalProof) rfl rfl ?_
    · rw [h]
      rfl
    · intro out hm hl
      fin_cases hm
      · rfl
      · exact absurd hl (by decide)
  · exact courierTargetsNonLocalOutputs.2.1 baseEnv
      { pkgTransferMix with finalProofs := [] } parcelMix sampleOut rfl rfl
      (List.mem_cons_self _ _) rfl rfl
  · have h := courierTargetsNonLocalOutputs.2.2 baseEnv [sampleOut]
    rw [h]
    rfl

/-- When every local output is importable, `importLocalAddresses` succeeds,
duplicate "already exists" imports included. -/
theorem importLocalAddresses_ok (env : PorterEnv) (anchorTx : Tx) :
    ∀ outs : List TransferOutput,
      (∀ out ∈ outs, importOK env anchorTx out) →
      ∃ tr, importLocalAddresses env anchorTx outs = (tr, .ok ())
  | [], _ => ⟨[], rfl⟩
  | out :: rest, h => by
    obtain ⟨tr, htr⟩ := importLocalAddresses_ok env anchorTx rest
      fun o ho => h o (List.mem_cons_of_mem out ho)
    cases hl : out.scriptKeyLocal with
    | false =>
      refine ⟨tr, ?_⟩
      simp only [importLocalAddresses, hl, Bool.not_false, if_true]
      exact htr
    | true =>
      obtain ⟨pk, key, hpk, hkey, himp⟩ := h out (List.mem_cons_self out rest) hl
      rw [List.get?_eq_getElem?] at hpk
      refine ⟨.importTaprootOutput key :: tr, ?_⟩
      rcases himp with hok | ⟨e, he, hc⟩
      · simp [importLocalAddresses, hl, hpk, hkey, hok, htr]
      · simp [importLocalAddresses, hl, hpk, hkey, he, hc, htr]

/-- A local output whose wallet import fails with an error not containing
"already exists" aborts `importLocalAddresses` with that error, however many
importable outputs precede it. -/
theorem importLocalAddresses_fail (env : PorterEnv) (anchorTx : Tx)
    (out : TransferOutput) (post : List TransferOutput) (pkScript key : Nat)
    (e : GoErr) (hl : out.scriptKeyLocal = true)
    (hpk : anchorTx.txOut.get? out.anchorOutPointIndex = some pkScript)
    (hkey : env.parseAnchorOutputKey pkScript = .ok key)
    (himp : env.importTaprootOutput key = .error e)
    (hc : strContains e "already exists" = false) :
    ∀ pre : List TransferOutput,
      (∀ o ∈ pre, importOK env anchorTx o) →
      (importLocalAddresses env anchorTx (pre ++ out :: post)).2 = .error e
  | [], _ => by
    rw [List.get?_eq_getElem?] at hpk
    simp [importLocalAddresses, hl, hpk, hkey, himp, hc]
  | p :: pre, h => by
    have ihp := importLocalAddresses_fail env anchorTx out post pkScript key e hl
      hpk hkey himp hc pre fun o ho => h o (List.mem_cons_of_mem p ho)
    rcases hrec : importLocalAddresses env anchorTx (pre ++ out :: post) with ⟨tr, r⟩
    rw [hrec] at ihp
    simp only at ihp
    subst ihp
    cases hpl : p.scriptKeyLocal with
    | false =>
      simp [importLocalAddresses, hpl, List.append_eq, hrec]
    | true =>
      obtain ⟨pk2, key2, hpk2, hkey2, himp2⟩ := h p (List.mem_cons_self p _) hpl
      rw [List.get?_eq_getElem?] at hpk2
      rcases himp2 with hok | ⟨e2, he2, hc2⟩
      · simp [importLocalAddresses, hpl, hpk2, hkey2, hok, List.append_eq, hrec]
      · simp [importLocalAddresses, hpl, hpk2, hkey2, he2, hc2, List.append_eq,
          hrec]

/-- C8: first conjunct — when every local output's anchor key extraction
succeeds and its wallet import either succeeds or fails with an error whose
message contains "already exists", `importLocalAddresses` succeeds, so resume
from `Broadcast` tolerates duplicate anchor-output imports.  Second conjunct
— a local output whose import fails with any other error aborts the step
with that error. -/
theorem importLocalAddressesIdempotent :
    (∀ (env : PorterEnv) (anchorTx : Tx) (outs : List TransferOutput),
      (∀ out ∈ outs, importOK env anchorTx out) →
      ∃ tr, importLocalAddresses env anchorTx outs = (tr, .ok ())) ∧
    (∀ (env : PorterEnv) (anchorTx : Tx) (pre post : List TransferOutput)
      (out : TransferOutput) (pkScript key : Nat) (e : GoErr),
      (∀ o ∈ pre, importOK env anchorTx o) →
      out.scriptKeyLocal = true →
      anchorTx.txOut.get? out.anchorOutPointIndex = some pkScript →
      env.parseAnchorOutputKey pkScript = .ok key →
      env.importTaprootOutput key = .error e →
      strContains e "already exists" = false →
      (importLocalAddresses env anchorTx (pre ++ out :: post)).2 = .error e) :=
  ⟨fun env anchorTx outs h => importLocalAddresses_ok env anchorTx outs h,
   fun env anchorTx pre post out pkScript key e hpre hl hpk hkey himp hc =>
     importLocalAddresses_fail env anchorTx out post pkScript key e hl hpk hkey
       himp hc pre hpre⟩

/-- C8 witness: a duplicate import ("already exists") is a success; a broken
wallet import aborts with its error. -/
theorem importLocalAddressesIdempotent_witness :
    (∃ tr, importLocalAddresses
      { baseEnv with importTaprootOutput :=
          fun _ => .error "wallet: output already exists" } sampleTx
      [sampleLocalOut] = (tr, .ok ())) ∧
    (importLocalAddresses
      { baseEnv with importTaprootOutput := fun _ => .error "wallet broke" }
      sampleTx [sampleLocalOut]).2 = .error "wallet broke" := by
  constructor
  · refine importLocalAddressesIdempotent.1 _ sampleTx [sampleLocalOut] ?_
    intro o hm
    fin_cases hm
    intro _
    exact ⟨1, 1001, rfl, rfl, .inr ⟨"wallet: output already exists", rfl, by decide⟩⟩
  · exact importLocalAddressesIdempotent.2
      { baseEnv with importTaprootOutput := fun _ => .error "wallet broke" }
      sampleTx [] [] sampleLocalOut 1 1001 "wallet broke"
      (fun o ho => absurd ho (List.not_mem_nil o)) rfl rfl rfl rfl (by decide)

/-- A driver run entered at `LogCommit` journals before any broadcast: its
trace starts with the journal write (or stops before it), and a broadcast in
its trace implies the journal write succeeded. -/
theorem lbp_from_logCommit (env : PorterEnv) :
    ∀ (n : Nat) (pkg : SendPackage), pkg.sendState = .LogCommit →
      logBeforePublish (advanceStateAux env n pkg).1 = true ∧
      (hasPublish (advanceStateAux env n pkg).1 = true →
        env.logPendingParcel = .ok ())
  | 0, _, _ => ⟨rfl, fun hp => by simp [advanceStateAux, hasPublish] at hp⟩
  | n + 1, pkg, hs => by
    cases hq : env.quit with
    | true =>
      have heq : advanceStateAux env (n + 1) pkg = ([], .ok pkg) := by
        simp [advanceStateAux, hs, SendState.toNat, hq]
      rw [heq]
      exact ⟨rfl, fun hp => by simp [hasPublish] at hp⟩
    | false =>
      rcases hch : env.currentHeight with e | ch
      · have heq : advanceStateAux env (n + 1) pkg =
            ([.execState .LogCommit],
             .error ("unable to get current height: " ++ e)) := by
          simp [advanceStateAux, hs, SendState.toNat, hq, stateStep, hch]
        rw [heq]
        exact ⟨rfl, fun hp => by simp [hasPublish] at hp⟩
      · rcases hpf : env.prepareForStorage ch with e | parcel0
        · have heq : advanceStateAux env (n + 1) pkg =
              ([.execState .LogCommit],
               .error ("unable to prepare parcel for storage: " ++ e)) := by
            simp [advanceStateAux, hs, SendState.toNat, hq, stateStep, hch, hpf]
          rw [heq]
          exact ⟨rfl, fun hp => by simp [hasPublish] at hp⟩
        · rcases hlp : env.logPendingParcel with e | u
          · have heq : advanceStateAux env (n + 1) pkg =
                ([.execState .LogCommit,
                  .logPendingParcel
                    { parcel0 with outputs := stampLocalFlags env parcel0.outputs }],
                 .error ("unable to write send pkg to disk: " ++ e)) := by
              simp [advanceStateAux, hs, SendState.toNat, hq, stateStep, hch,
                hpf, hlp]
            rw [heq]
            exact ⟨rfl, fun hp => by simp [hasPublish] at hp⟩
          · cases u
            rcases haux : advanceStateAux env n
                { pkg with
                    outboundPkg := some
                      { parcel0 with
                          outputs := stampLocalFlags env parcel0.outputs },
                    sendState := .Broadcast } with ⟨tr2, r2⟩
            have heq : advanceStateAux env (n + 1) pkg =
                (.execState .LogCommit ::
                  .logPendingParcel
                    { parcel0 with outputs := stampLocalFlags env parcel0.outputs } ::
                    tr2, r2) := by
              simp [advanceStateAux, hs, SendState.toNat, hq, stateStep, hch,
                hpf, hlp, haux]
            rw [heq]
            exact ⟨rfl, fun _ => rfl⟩

/-- A driver run entered at `AnchorSign` journals before any broadcast. -/
theorem lbp_from_anchorSign (env : PorterEnv) :
    ∀ (n : Nat) (pkg : SendPackage), pkg.sendState = .AnchorSign →
      logBeforePublish (advanceStateAux env n pkg).1 = true ∧
      (hasPublish (advanceStateAux env n pkg).1 = true →
        env.logPendingParcel = .ok ())
  | 0, _, _ => ⟨rfl, fun hp => by simp [advanceStateAux, hasPublish] at hp⟩
  | n + 1, pkg, hs => by
    cases hq : env.quit with
    | true =>
      have heq : advanceStateAux env (n + 1) pkg = ([], .ok pkg) := by
        simp [advanceStateAux, hs, SendState.toNat, hq]
      rw [heq]
      exact ⟨rfl, fun hp => by simp [hasPublish] at hp⟩
    | false =>
      rcases hfe : env.estimateFee with e | fee
      · have heq : advanceStateAux env (n + 1) pkg =
            ([.execState .AnchorSign], .error ("unable to estimate fee: " ++ e)) := by
          simp [advanceStateAux, hs, SendState.toNat, hq, stateStep, hfe]
        rw [heq]
        exact ⟨rfl, fun hp => by simp [hasPublish] at hp⟩
      · rcases hfo : env.firstNonSplitRootOutput with e | u0
        · have heq : advanceStateAux env (n + 1) pkg =
              ([.execState .AnchorSign],
               .error ("unable to get first interactive output: " ++ e)) := by
            simp [advanceStateAux, hs, SendState.toNat, hq, stateStep, hfe, hfo]
          rw [heq]
          exact ⟨rfl, fun hp => by simp [hasPublish] at hp⟩
        · cases u0
          rcases hsp : env.signPassiveAssets with e | passives
          · have heq : advanceStateAux env (n + 1) pkg =
                ([.execState .AnchorSign],
                 .error ("unable to sign passive assets: " ++ e)) := by
              simp [advanceStateAux, hs, SendState.toNat, hq, stateStep, hfe,
                hfo, hsp]
            rw [heq]
            exact ⟨rfl, fun hp => by simp [hasPublish] at hp⟩
          · rcases hav : env.anchorVirtualTransactions with e | anchorTx
            · have heq : advanceStateAux env (n + 1) pkg =
                  ([.execState .AnchorSign],
                   .error ("unable to anchor virtual transactions: " ++ e)) := by
                simp [advanceStateAux, hs, SendState.toNat, hq, stateStep, hfe,
                  hfo, hsp, hav]
              rw [heq]
              exact ⟨rfl, fun hp => by simp [hasPublish] at hp⟩
            · have ih := lbp_from_logCommit env n
                { pkg with
                    passiveAssets := passives,
                    anchorTx := some anchorTx,
                    sendState := .LogCommit } rfl
              rcases haux : advanceStateAux env n
                  { pkg with
                      passiveAssets := passives,
                      anchorTx := some anchorTx,
                      sendState := .LogCommit } with ⟨tr2, r2⟩
              rw [haux] at ih
              have heq : advanceStateAux env (n + 1) pkg =
                  (.execState .AnchorSign :: tr2, r2) := by
                simp [advanceStateAux, hs, SendState.toNat, hq, stateStep, hfe,
                  hfo, hsp, hav, haux]
              rw [heq]
              exact ⟨ih.1, fun hp => ih.2 hp⟩

/-- A driver run entered at `VirtualSign` journals before any broadcast. -/
theorem lbp_from_virtualSign (env : PorterEnv) :
    ∀ (n : Nat) (pkg : SendPackage), pkg.sendState = .VirtualSign →
      logBeforePublish (advanceStateAux env n pkg).1 = true ∧
      (hasPublish (advanceStateAux env n pkg).1 = true →
        env.logPendingParcel = .ok ())
  | 0, _, _ => ⟨rfl, fun hp => by simp [advanceStateAux, hasPublish] at hp⟩
  | n + 1, pkg, hs => by
    cases hq : env.quit with
    | true =>
      have heq : advanceStateAux env (n + 1) pkg = ([], .ok pkg) := by
        simp [advanceStateAux, hs, SendState.toNat, hq]
      rw [heq]
      exact ⟨rfl, fun hp => by simp [hasPublish] at hp⟩
    | false =>
      rcases hsv : env.signVirtualPacket with e | u0
      · have heq : advanceStateAux env (n + 1) pkg =
            ([.execState .VirtualSign],
             .error ("unable to sign and commit virtual packet: " ++ e)) := by
          simp [advanceStateAux, hs, SendState.toNat, hq, stateStep, hsv]
        rw [heq]
        exact ⟨rfl, fun hp => by simp [hasPublish] at hp⟩
      · cases u0
        have ih := lbp_from_anchorSign env n
          { pkg with sendState := .AnchorSign } rfl
        rcases haux : advanceStateAux env n
            { pkg with sendState := .AnchorSign } with ⟨tr2, r2⟩
        rw [haux] at ih
        have heq : advanceStateAux env (n + 1) pkg =
            (.execState .VirtualSign :: tr2, r2) := by
          simp [advanceStateAux, hs, SendState.toNat, hq, stateStep, hsv, haux]
        rw [heq]
        exact ⟨ih.1, fun hp => ih.2 hp⟩

/-- A driver run entered at `VirtualCommitmentSelect` journals before any
broadcast. -/
theorem lbp_from_select (env : PorterEnv) :
    ∀ (n : Nat) (pkg : SendPackage), pkg.sendState = .VirtualCommitmentSelect →
      logBeforePublish (advanceStateAux env n pkg).1 = true ∧
      (hasPublish (advanceStateAux env n pkg).1 = true →
        env.logPendingParcel = .ok ())
  | 0, _, _ => ⟨rfl, fun hp => by simp [advanceStateAux, hasPublish] at hp⟩
  | n + 1, pkg, hs => by
    cases hq : env.quit with
    | true =>
      have heq : advanceStateAux env (n + 1) pkg = ([], .ok pkg) := by
        simp [advanceStateAux, hs, SendState.toNat, hq]
      rw [heq]
      exact ⟨rfl, fun hp => by simp [hasPublish] at hp⟩
    | false =>
      cases hb : pkg.isAddressParcel with
      | false =>
        have heq : advanceStateAux env (n + 1) pkg =
            ([.execState .VirtualCommitmentSelect],
             .error "unable to cast parcel to address parcel") := by
          simp [advanceStateAux, hs, SendState.toNat, hq, stateStep, hb]
        rw [heq]
        exact ⟨rfl, fun hp => by simp [hasPublish] at hp⟩
      | true =>
        rcases hf : env.fundAddressSend with e | ⟨vp, ic⟩
        · have heq : advanceStateAux env (n + 1) pkg =
              ([.execState .VirtualCommitmentSelect],
               .error ("unable to fund address send: " ++ e)) := by
            simp [advanceStateAux, hs, SendState.toNat, hq, stateStep, hb, hf]
          rw [heq]
          exact ⟨rfl, fun hp => by simp [hasPublish] at hp⟩
        · have ih := lbp_from_virtualSign env n
            { pkg with
                virtualPacket := some vp,
                inputCommitments := some ic,
                sendState := .VirtualSign } rfl
          rcases haux : advanceStateAux env n
              { pkg with
                  virtualPacket := some vp,
                  inputCommitments := some ic,
                  sendState := .VirtualSign } with ⟨tr2, r2⟩
          rw [haux] at ih
          rw [hb] at haux
          have heq : advanceStateAux env (n + 1) pkg =
              (.execState .VirtualCommitmentSelect :: tr2, r2) := by
            simp [advanceStateAux, hs, SendState.toNat, hq, stateStep, hb, hf,
              haux]
          rw [heq]
          exact ⟨ih.1, fun hp => ih.2 hp⟩

/-- C1: for every parcel driven through the state machine from any state up
to and including `LogCommit`, the driver's trace never broadcasts before the
journal write: the first journal-or-broadcast call in the trace is the
journal write, and any broadcast in the trace implies the journal write
(`LogPendingParcel`) completed successfully. -/
theorem journalBeforeBroadcastHolds (env : PorterEnv) (pkg : SendPackage)
    (h : pkg.sendState.toNat ≤ SendState.LogCommit.toNat) :
    logBeforePublish (advanceState env pkg).1 = true ∧
    (hasPublish (advanceState env pkg).1 = true →
      env.logPendingParcel = .ok ()) := by
  cases hs : pkg.sendState
  case VirtualCommitmentSelect => exact lbp_from_select env 9 pkg hs
  case VirtualSign => exact lbp_from_virtualSign env 9 pkg hs
  case AnchorSign => exact lbp_from_anchorSign env 9 pkg hs
  case LogCommit => exact lbp_from_logCommit env 9 pkg hs
  all_goals rw [hs] at h
  all_goals exact absurd h (by decide)

/-- C1 witness: a full successful run of the sample oracle from a fresh
package; the run broadcasts, and the journal write precedes it. -/
theorem journalBeforeBroadcastHolds_witness :
    (logBeforePublish (advanceState baseEnv freshPkg).1 = true ∧
      (hasPublish (advanceState baseEnv freshPkg).1 = true →
        baseEnv.logPendingParcel = .ok ())) ∧
    hasPublish (advanceState baseEnv freshPkg).1 = true :=
  ⟨journalBeforeBroadcastHolds baseEnv freshPkg (by decide), rfl⟩

/-- A successful confirmation wait either left the package untouched (the
quit branch) or recorded the confirmation and advanced to `StoreProofs`. -/
theorem waitForTransferTxConf_ok (env : PorterEnv) (pkg pkg2 : SendPackage)
    (tr : List Event) (h : waitForTransferTxConf env pkg = (tr, .ok pkg2)) :
    (pkg2 = pkg ∧ env.confSelect = .quit) ∨
    ∃ c, pkg2 = { pkg with
                    transferTxConfEvent := some c,
                    sendState := .StoreProofs } := by
  rw [waitForTransferTxConf] at h
  cases ho : pkg.outboundPkg with
  | none => simp [ho] at h
  | some parcel =>
    simp only [ho] at h
    rcases hr : env.registerConfNtfn with e | u
    · simp [hr] at h
    · simp only [hr] at h
      cases hcs : env.confSelect with
      | confirmed c =>
        simp only [hcs, Prod.mk.injEq, Except.ok.injEq] at h
        exact .inr ⟨c, h.2.symm⟩
      | errChan e => simp [hcs] at h
      | ctxDone => simp [hcs] at h
      | quit =>
        simp only [hcs, Prod.mk.injEq, Except.ok.injEq] at h
        exact .inl ⟨h.2.symm, rfl⟩

/-- A successful `storeProofs` sets the state to `ReceiverProofTransfer`. -/
theorem storeProofs_ok_state (env : PorterEnv) (pkg pkg2 : SendPackage)
    (tr : List Event) (h : storeProofs env pkg = (tr, .ok pkg2)) :
    pkg2.sendState = .ReceiverProofTransfer := by
  rw [storeProofs] at h
  cases ho : pkg.outboundPkg with
  | none => simp [ho] at h
  | some parcel =>
    cases hc : pkg.transferTxConfEvent with
    | none => simp [ho, hc] at h
    | some confEvent =>
      simp only [ho, hc] at h
      rcases hb : buildPassiveProofFiles env confEvent pkg.passiveAssets
        with ⟨tr1, r1⟩
      cases r1 with
      | error e => simp [hb] at h
      | ok files =>
        simp only [hb] at h
        rcases hi : env.importProofs files with e | u
        · simp [hi] at h
        · simp only [hi] at h
          cases hin : parcel.inputs with
          | nil =>
            simp only [hin, Prod.mk.injEq, Except.ok.injEq] at h
            exact (congrArg SendPackage.sendState h.2).symm
          | cons i0 rest =>
            simp only [hin] at h
            rcases hsa : sealActiveOutputs env i0 rest confEvent parcel.outputs []
              with ⟨tr2, r2⟩
            cases r2 with
            | error e => simp [hsa] at h
            | ok fps =>
              simp only [hsa, Prod.mk.injEq, Except.ok.injEq] at h
              exact (congrArg SendPackage.sendState h.2).symm

/-- A successful `transferReceiverProof` sets the state to `Complete`. -/
theorem transferReceiverProof_ok_state (env : PorterEnv)
    (pkg pkg2 : SendPackage) (tr : List Event)
    (h : transferReceiverProof env pkg = (tr, .ok pkg2)) :
    pkg2.sendState = .Complete := by
  rw [transferReceiverProof] at h
  cases ho : pkg.outboundPkg with
  | none => simp [ho] at h
  | some parcel =>
    simp only [ho] at h
    rcases hps : (if env.proofCourier then
        parSlice (deliverOne env pkg) parcel.outputs else ([], .ok ()))
      with ⟨tr0, r0⟩
    cases r0 with
    | error e => simp [hps] at h
    | ok u =>
      simp only [hps] at h
      rcases hld : loadPassiveProofFiles env parcel.passiveAssets with ⟨tr1, r1⟩
      cases r1 with
      | error e => simp [hld] at h
      | ok files =>
        simp only [hld] at h
        cases hc : pkg.transferTxConfEvent with
        | none => simp [hc] at h
        | some conf =>
          simp only [hc] at h
          rcases hcp : env.confirmParcelDelivery with e | u2
          · simp [hcp] at h
          · simp only [hcp, Prod.mk.injEq, Except.ok.injEq] at h
            exact (congrArg SendPackage.sendState h.2).symm

/-- One successful step of the state machine either strictly increases the
state, or (only in the quit branch of the confirmation wait) leaves the whole
package unchanged. -/
theorem stateStep_ok_mono (env : PorterEnv) (pkg pkg2 : SendPackage)
    (tr : List Event) (h : stateStep env pkg = (tr, .ok pkg2)) :
    pkg.sendState.toNat < pkg2.sendState.toNat ∨
    (pkg2 = pkg ∧ env.confSelect = .quit) := by
  cases hs : pkg.sendState
  case VirtualCommitmentSelect =>
    simp only [stateStep, hs] at h
    cases hb : pkg.isAddressParcel
    · simp [hb] at h
    · simp only [hb, if_true] at h
      rcases hf : env.fundAddressSend with e | ⟨vp, ic⟩
      · simp [hf] at h
      · simp only [hf, Prod.mk.injEq, Except.ok.injEq] at h
        have h2 : pkg2.sendState = SendState.VirtualSign :=
          (congrArg SendPackage.sendState h.2).symm
        exact .inl (by rw [h2]; decide)
  case VirtualSign =>
    simp only [stateStep, hs] at h
    rcases hv : env.signVirtualPacket with e | u
    · simp [hv] at h
    · simp only [hv, Prod.mk.injEq, Except.ok.injEq] at h
      have h2 : pkg2.sendState = SendState.AnchorSign :=
        (congrArg SendPackage.sendState h.2).symm
      exact .inl (by rw [h2]; decide)
  case AnchorSign =>
    simp only [stateStep, hs] at h
    rcases hfe : env.estimateFee with e | fee
    · simp [hfe] at h
    · simp only [hfe] at h
      rcases hfo : env.firstNonSplitRootOutput with e | u
      · simp [hfo] at h
      · simp only [hfo] at h
        rcases hsp : env.signPassiveAssets with e | ps
        · simp [hsp] at h
        · simp only [hsp] at h
          rcases hav : env.anchorVirtualTransactions with e | atx
          · simp [hav] at h
          · simp only [hav, Prod.mk.injEq, Except.ok.injEq] at h
            have h2 : pkg2.sendState = SendState.LogCommit :=
              (congrArg SendPackage.sendState h.2).symm
            exact .inl (by rw [h2]; decide)
  case LogCommit =>
    simp only [stateStep, hs] at h
    rcases hch : env.currentHeight with e | ch
    · simp [hch] at h
    · simp only [hch] at h
      rcases hpf : env.prepareForStorage ch with e | parcel0
      · simp [hpf] at h
      · simp only [hpf] at h
        rcases hlp : env.logPendingParcel with e | u
        · simp [hlp] at h
        · simp only [hlp, Prod.mk.injEq, Except.ok.injEq] at h
          have h2 : pkg2.sendState = SendState.Broadcast :=
            (congrArg SendPackage.sendState h.2).symm
          exact .inl (by rw [h2]; decide)
  case Broadcast =>
    simp only [stateStep, hs] at h
    cases ho : pkg.outboundPkg with
    | none => simp [ho] at h
    | some parcel =>
      simp only [ho] at h
      rcases him : importLocalAddresses env parcel.anchorTx parcel.outputs
        with ⟨tr1, r1⟩
      cases r1 with
      | error e => simp [him] at h
      | ok u =>
        simp only [him] at h
        rcases hpub : env.publishTransaction with e | u2
        · simp [hpub] at h
        · simp only [hpub, Prod.mk.injEq, Except.ok.injEq] at h
          have h2 : pkg2.sendState = SendState.WaitTxConf :=
            (congrArg SendPackage.sendState h.2).symm
          exact .inl (by rw [h2]; decide)
  case WaitTxConf =>
    simp only [stateStep, hs] at h
    rcases hw : waitForTransferTxConf env pkg with ⟨tr1, r1⟩
    simp only [hw, Prod.mk.injEq] at h
    rw [h.2] at hw
    rcases waitForTransferTxConf_ok env pkg pkg2 tr1 hw with ⟨hp, hq⟩ | ⟨c, hp⟩
    · exact .inr ⟨hp, hq⟩
    · have h2 : pkg2.sendState = SendState.StoreProofs := by rw [hp]
      exact .inl (by rw [h2]; decide)
  case StoreProofs =>
    simp only [stateStep, hs] at h
    rcases hsp : storeProofs env pkg with ⟨tr1, r1⟩
    simp only [hsp, Prod.mk.injEq] at h
    rw [h.2] at hsp
    rw [storeProofs_ok_state env pkg pkg2 tr1 hsp]
    exact .inl (by decide)
  case ReceiverProofTransfer =>
    simp only [stateStep, hs] at h
    rcases htp : transferReceiverProof env pkg with ⟨tr1, r1⟩
    simp only [htp, Prod.mk.injEq] at h
    rw [h.2] at htp
    rw [transferReceiverProof_ok_state env pkg pkg2 tr1 htp]
    exact .inl (by decide)
  case Complete =>
    simp only [stateStep, hs] at h
    simp at h

/-- The first state a driver run visits, when it visits any, is the state of
the package it starts from. -/
theorem advanceVisited_head (env : PorterEnv) :
    ∀ (n : Nat) (pkg : SendPackage),
      (advanceVisited env n pkg).head? = none ∨
      (advanceVisited env n pkg).head? = some pkg.sendState
  | 0, _ => .inl rfl
  | n + 1, pkg => by
    by_cases hlt : pkg.sendState.toNat < SendState.Complete.toNat
    · cases hq : env.quit with
      | true => exact .inl (by simp [advanceVisited, hlt, hq])
      | false =>
        rcases hstep : stateStep env pkg with ⟨tr, r⟩
        cases r with
        | error e => exact .inr (by simp [advanceVisited, hlt, hq, hstep])
        | ok pkg3 => exact .inr (by simp [advanceVisited, hlt, hq, hstep])
    · exact .inl (by simp [advanceVisited, hlt])

/-- Under the channel-coherence assumption (the quit arm of the confirmation
select can only fire when the quit channel is closed), the states a driver
run visits form a strictly increasing chain. -/
theorem advanceVisited_chain (env : PorterEnv)
    (hco : env.confSelect = .quit → env.quit = true) :
    ∀ (n : Nat) (pkg : SendPackage),
      List.Chain' (fun a b => a.toNat < b.toNat) (advanceVisited env n pkg)
  | 0, _ => List.chain'_nil
  | n + 1, pkg => by
    by_cases hlt : pkg.sendState.toNat < SendState.Complete.toNat
    · cases hq : env.quit with
      | true =>
        have heq : advanceVisited env (n + 1) pkg = [] := by
          simp [advanceVisited, hlt, hq]
        rw [heq]
        exact List.chain'_nil
      | false =>
        rcases hstep : stateStep env pkg with ⟨tr, r⟩
        cases r with
        | error e =>
          have heq : advanceVisited env (n + 1) pkg = [pkg.sendState] := by
            simp [advanceVisited, hlt, hq, hstep]
          rw [heq]
          exact List.chain'_singleton _
        | ok pkg3 =>
          have heq : advanceVisited env (n + 1) pkg =
              pkg.sendState :: advanceVisited env n pkg3 := by
            simp [advanceVisited, hlt, hq, hstep]
          rw [heq, List.chain'_cons']
          refine ⟨?_, advanceVisited_chain env hco n pkg3⟩
          intro y hy
          rcases advanceVisited_head env n pkg3 with hh | hh
          · rw [hh] at hy
            exact absurd hy (by simp)
          · rw [hh, Option.mem_some_iff] at hy
            subst hy
            rcases stateStep_ok_mono env pkg pkg3 tr hstep with hlt2 | ⟨_, hquit⟩
            · exact hlt2
            · have hcontra := hco hquit
              rw [hq] at hcontra
              exact absurd hcontra (by decide)
    · have heq : advanceVisited env (n + 1) pkg = [] := by
        simp [advanceVisited, hlt]
      rw [heq]
      exact List.chain'_nil

/-- C3: first conjunct — a successful step of the state machine never sets
the state to an earlier or different-but-not-later value: it leaves the state
unchanged (the quit branch of the confirmation wait, which sets nothing) or
strictly increases it in the order VirtualCommitmentSelect < VirtualSign <
AnchorSign < LogCommit < Broadcast < WaitTxConf < StoreProofs <
ReceiverProofTransfer < Complete.  Second conjunct — whenever the quit arm of
the confirmation select can only fire with the quit channel closed, the
sequence of values taken by the `SendState` field over a driver run is
strictly increasing. -/
theorem sendStateMonotonic :
    (∀ (env : PorterEnv) (pkg : SendPackage) (tr : List Event)
      (pkg2 : SendPackage), stateStep env pkg = (tr, .ok pkg2) →
      pkg2.sendState = pkg.sendState ∨
        pkg.sendState.toNat < pkg2.sendState.toNat) ∧
    (∀ env : PorterEnv, (env.confSelect = .quit → env.quit = true) →
      ∀ (n : Nat) (pkg : SendPackage),
        List.Chain' (fun a b => a.toNat < b.toNat) (advanceVisited env n pkg)) := by
  constructor
  · intro env pkg tr pkg2 h
    rcases stateStep_ok_mono env pkg pkg2 tr h with hlt | ⟨heq, _⟩
    · exact .inr hlt
    · exact .inl (by rw [heq])
  · intro env hco n pkg
    exact advanceVisited_chain env hco n pkg

/-- C3 witness: the first step of the sample run strictly advances, and the
full sample run visits a strictly increasing sequence of states. -/
theorem sendStateMonotonic_witness :
    (∃ pkg2, stateStep baseEnv freshPkg =
        ([Event.execState SendState.VirtualCommitmentSelect], Except.ok pkg2) ∧
      (pkg2.sendState = freshPkg.sendState ∨
        freshPkg.sendState.toNat < pkg2.sendState.toNat)) ∧
    List.Chain' (fun a b => a.toNat < b.toNat)
      (advanceVisited baseEnv 9 freshPkg) :=
  ⟨⟨_, rfl, sendStateMonotonic.1 baseEnv freshPkg _ _ rfl⟩,
   sendStateMonotonic.2 baseEnv (fun h => ConfSelect.noConfusion h) 9 freshPkg⟩

end Porter

